import Mathlib

/-!
Verification of the `ledit` test-orchestration harness scripts
(`test_runner.py`, `test.py`, `e2e_test_runner.py`, `integration_test_runner.py`).

The Python string operations used by the scripts (membership test `in`,
`.lower()`, `.strip()`, `.split(sep)[-1]`, slicing `[:n]`, `.replace`) are
embedded as executable functions over `List Char` (a Lean `String` is a list
of unicode scalar values, matching Python's code-point semantics for the
ASCII data these scripts handle).
-/

set_option maxRecDepth 10000

/-- `isPrefixOfChars needle hay` : does `hay` start with `needle`? -/
def isPrefixOfChars : List Char → List Char → Bool
  | [], _ => true
  | _ :: _, [] => false
  | a :: as, b :: bs => a == b && isPrefixOfChars as bs

/-- `containsSub hay needle` : Python `needle in hay` (substring search). -/
def containsSub : List Char → List Char → Bool
  | hay, needle =>
    isPrefixOfChars needle hay ||
      (match hay with
       | [] => false
       | _ :: t => containsSub t needle)

/-- Python `needle in hay` on strings. -/
def pyIn (needle hay : String) : Bool := containsSub hay.data needle.data

/-- Python `str.lower` on one character (ASCII case, as used by the scripts). -/
def pyLowerChar (c : Char) : Char :=
  if 'A' ≤ c && c ≤ 'Z' then Char.ofNat (c.toNat + 32) else c

/-- Python `str.lower` on a string. -/
def pyLower (s : String) : String := String.mk (s.data.map pyLowerChar)

/-- Python whitespace characters stripped by `str.strip()`. -/
def isPyWs (c : Char) : Bool :=
  c == ' ' || c == '\t' || c == '\n' || c == '\r' || c == '\x0b' || c == '\x0c'

/-- Drop leading Python whitespace. -/
def dropWs : List Char → List Char
  | [] => []
  | c :: t => if isPyWs c then dropWs t else c :: t

/-- Python `str.strip()` on a character list: drop leading and trailing whitespace. -/
def stripChars (l : List Char) : List Char :=
  (dropWs ((dropWs l).reverse)).reverse

/-- Python `str.strip()`. -/
def pyStrip (s : String) : String := String.mk (stripChars s.data)

/-- Python slicing `s[:n]`: the first `n` code points. -/
def pyTake (s : String) (n : Nat) : String := String.mk (s.data.take n)

/-- Fuelled worker for Python `str.split(sep)` with a non-empty separator.
The fuel starts at the length of the scanned list, which every step
strictly decreases faster than, so the fuel-exhausted branch is unreachable
on the actual calls. -/
def splitFuel : Nat → List Char → List Char → List Char → List (List Char)
  | _, [], _, acc => [acc.reverse]
  | 0, l, _, acc => [acc.reverse ++ l]
  | fuel + 1, c :: t, sep, acc =>
    if isPrefixOfChars sep (c :: t) then
      acc.reverse :: splitFuel fuel (List.drop (sep.length - 1) t) sep []
    else
      splitFuel fuel t sep (c :: acc)

/-- Python `s.split(sep)` for a non-empty separator `sep`. -/
def pySplit (s sep : String) : List String :=
  (splitFuel s.data.length s.data sep.data []).map String.mk

/--
`extract_failure_reason` of `test_runner.py` lines 42-68 (identical in
`test.py` lines 38-64): prioritized pattern search over captured output.
Note that each membership check lowercases the text, while the corresponding
`split` runs on the original, unlowered text.
-/
def extract_failure_reason (stdout stderr : String) : String :=
  if pyIn "error:" (pyLower stderr) then
    pyTake (pyStrip ((pySplit stderr "error:").getLastD stderr)) 1000
  else if pyIn "failed:" (pyLower stdout) then
    pyTake (pyStrip ((pySplit stdout "failed:").getLastD stdout)) 1000
  else if pyIn "assertion failed" (pyLower stderr) then
    pyTake (pyStrip ((pySplit stderr "assertion failed").getLastD stderr)) 1000
  else if pyStrip stderr ≠ "" then
    pyTake (pyStrip stderr) 1000
  else if pyStrip stdout ≠ "" then
    pyTake (pyStrip stdout) 1000
  else
    "Unknown failure reason"

/--
Classification of a finished test process by exit code, `test_runner.py`
line 428 (`test.py` line 334): `result = 'PASS' if exit_code == 0 else 'FAIL'`.
-/
def classifyExit (code : Int) : String := if code = 0 then "PASS" else "FAIL"

/-- The terminal fate of one executed test in the monitoring loop. -/
inductive Outcome where
  | timedOut : Outcome
  | exited : Int → Outcome
deriving DecidableEq

/-- The status string the monitoring loop records for an executed test:
`'FAIL (Timeout)'` on timeout (line 421), otherwise `classifyExit` (line 428). -/
def statusOf : Outcome → String
  | Outcome.timedOut => "FAIL (Timeout)"
  | Outcome.exited c => classifyExit c

/-- `all_passed` of `test_runner.py` lines 502-507: scan the recorded statuses,
any status containing the substring `'FAIL'` clears the flag. -/
def allPassed (results : List (String × String)) : Bool :=
  results.all (fun p => !(pyIn "FAIL" p.2))

/-- The harness's overall process exit code, `test_runner.py` lines 564-566:
`sys.exit(1)` when `all_passed` is false, otherwise the script falls off
`main` and the process exits 0. -/
def overallExitCode (results : List (String × String)) : Nat :=
  if allPassed results then 0 else 1

/--
The final report of `test_runner.py` lines 544-559 (`test.py` lines 410-425):
one line per discovered test, in discovery order, each showing the recorded
status, defaulting to `"NOT RUN"` (`results.get(name, "NOT RUN")`).
The completed-test statuses are the association list `results` (insertion
order = completion order); only `lookup` matters to the printed report.
-/
def reportLines (tests : List String) (results : List (String × String)) :
    List (String × String) :=
  tests.map (fun name => (name, (results.lookup name).getD "NOT RUN"))

/-- Workspace-name sanitization, `test_runner.py` line 354:
`test_name.replace(' ', '_')`. -/
def sanitize (name : String) : String :=
  String.mk (name.data.map (fun c => if c == ' ' then '_' else c))

/-- Per-test workspace directory, `test_runner.py` line 358:
`testing_dir / sanitized_test_name`, as a component path. -/
def workspacePath (name : String) : List String := ["testing", sanitize name]

/-- One discovered test: its reported logical name and its script path
(`tests.append({'name': test_name, 'path': script_path})`, line 258). -/
structure TestEntry where
  name : String
  path : String
deriving DecidableEq

/-- `tests_mapping` of `test_runner.py` line 272 (`test.py` line 217):
1-indexed string keys `str(i+1)` mapped to test names, in discovery order.
The worker carries the index offset. -/
def testsMappingAux (i : Nat) : List TestEntry → List (String × String)
  | [] => []
  | t :: ts => (toString (i + 1), t.name) :: testsMappingAux (i + 1) ts

/-- `tests_mapping = {str(i+1): test['name'] for i, test in enumerate(tests)}`. -/
def testsMapping (tests : List TestEntry) : List (String × String) :=
  testsMappingAux 0 tests

/-- The prompted test number, `test_runner.py` line 302:
`input(...).strip()`; `none` models the `EOFError` path (line 304),
which logs an error and exits 1. -/
def promptedNumber (stdinLine : Option String) : Option String :=
  match stdinLine with
  | none => none
  | some s => some (pyStrip s)

/--
Single-test-mode selection, `test_runner.py` lines 293-323 (`test.py` lines
238-268). `tArg` is the `-t` argument (`some` when supplied), `stdinLine`
the line available on standard input (`none` = end of file). Every
`Except.error` models a `logging.error` followed by `sys.exit(1)` before
any child process is launched; `Except.ok sel` proceeds to the fan-out loop
that launches one child per entry of `sel`. Selection filters the catalog
by name equality: `[test for test in tests if test['name'] == selected_test_name]`.
-/
def singleSelect (tests : List TestEntry) (tArg : Option String)
    (stdinLine : Option String) : Except String (List TestEntry) :=
  let num? : Option String :=
    match tArg with
    | some t => if t ≠ "" then some t else promptedNumber stdinLine
    | none => promptedNumber stdinLine
  match num? with
  | none => Except.error "Input stream closed (EOF)"
  | some num =>
    if num ≠ "" then
      match (testsMapping tests).lookup num with
      | none => Except.error "Invalid test number"
      | some selName =>
        let sel := tests.filter (fun t => t.name == selName)
        if sel.isEmpty then
          Except.error "found in mapping but not in discovered scripts"
        else
          Except.ok sel
    else
      Except.error "No test number entered or selected"

/-- The tests for which the fan-out loop launches a child process: the
selected list on success, nothing when selection exited with an error. -/
def launchedTests : Except String (List TestEntry) → List TestEntry
  | Except.ok sel => sel
  | Except.error _ => []

/-- What the `e2e_test_runner.py` / `integration_test_runner.py` entry point
does with the `-t` argument. -/
inductive SelAction where
  | runAll : SelAction
  | runSingle : Nat → SelAction
  | rangeError : SelAction
deriving DecidableEq

/-- Python truthiness of the optional integer `-t` argument:
`None` and `0` are both falsy. -/
def pyTruthyInt : Option Int → Bool
  | none => false
  | some t => t != 0

/--
Test selection of `e2e_test_runner.py` lines 62-84 (same shape in
`integration_test_runner.py` lines 54-133): `if not args.test:` runs ALL
tests; only a truthy `args.test` reaches the range check
`if args.test < 1 or args.test > len(tests)`, which exits 1;
otherwise `tests[args.test - 1]` is run.
-/
def e2eSelect (numTests : Nat) (testArg : Option Int) : SelAction :=
  if pyTruthyInt testArg = false then
    SelAction.runAll
  else
    match testArg with
    | none => SelAction.runAll
    | some t =>
      if t < 1 ∨ t > (numTests : Int) then SelAction.rangeError
      else SelAction.runSingle (t - 1).toNat

/-- The observable state of one monitored child process. -/
inductive ProcState where
  | running : ProcState
  | exited : Int → ProcState
deriving DecidableEq

/-- One entry of the `processes` dictionary (`test_runner.py` lines 390-400):
process handle (pid + poll state + whether `kill()` was issued), test name,
launch time, and the captured output read back after the sinks are closed. -/
structure RunInfo where
  pid : Nat
  name : String
  startTime : Nat
  state : ProcState
  killed : Bool
  stdoutContent : String
  stderrContent : String
deriving DecidableEq

/-- The monitoring loop's mutable state: the live-process set and the
`results` / `failure_reasons` dictionaries (keyed by test name).
The dictionaries are modelled by their lookup functions. -/
structure MonitorState where
  processes : List RunInfo
  results : String → Option String
  reasons : String → Option String

/-- Dictionary update `d[k] = v` (as observed through lookup). -/
def dUpd (m : String → Option String) (k v : String) : String → Option String :=
  fun x => if x = k then some v else m x

/-- The fixed timeout message, `test_runner.py` line 422:
`f"Test timed out after {timeout} seconds"`. -/
def timeoutMsg (timeout : Nat) : String :=
  "Test timed out after " ++ toString timeout ++ " seconds"

/--
The treatment of one live process in an iteration of the monitoring loop,
`test_runner.py` lines 411-432: a still-running process past its budget is
killed and recorded as `'FAIL (Timeout)'` with the fixed timeout reason
(lines 416-423); a still-running process within budget is left alone
(line 425); an exited process is recorded via `classifyExit` (lines 427-432).
`some fin` means the (possibly killed) run joins `pids_to_remove`.
-/
def scanStep (now timeout : Nat) (st : MonitorState) (r : RunInfo) :
    MonitorState × Option RunInfo :=
  match r.state with
  | ProcState.running =>
    if now - r.startTime > timeout then
      ({ st with
         results := dUpd st.results r.name "FAIL (Timeout)",
         reasons := dUpd st.reasons r.name (timeoutMsg timeout) },
       some { r with killed := true })
    else (st, none)
  | ProcState.exited c =>
    ({ st with results := dUpd st.results r.name (classifyExit c) }, some r)

/--
First half of one monitoring iteration, `test_runner.py` lines 411-432:
apply `scanStep` to every live process in order, accumulating the finalized
runs (`pids_to_remove`, in scan order).
-/
def monitorScan (now timeout : Nat) :
    List RunInfo → MonitorState → MonitorState × List RunInfo
  | [], st => (st, [])
  | r :: rs, st =>
    match scanStep now timeout st r with
    | (st1, none) => monitorScan now timeout rs st1
    | (st1, some fin) =>
      ((monitorScan now timeout rs st1).1,
       fin :: (monitorScan now timeout rs st1).2)

/--
Diagnosis step for one finalized run, `test_runner.py` lines 442-455:
a non-`'PASS'` run has its captured output read back and, unless its status
is `'FAIL (Timeout)'` (comment: "Don't overwrite timeout reason"), its
failure reason set from `extract_failure_reason`.
-/
def diagnose (st : MonitorState) (r : RunInfo) : MonitorState :=
  if st.results r.name ≠ some "PASS" then
    if st.results r.name ≠ some "FAIL (Timeout)" then
      { st with
        reasons :=
          dUpd st.reasons r.name
            (extract_failure_reason r.stdoutContent r.stderrContent) }
    else st
  else st

/--
One full iteration of the monitoring loop, `test_runner.py` lines 407-494:
scan the live set (lines 411-432), then for every finalized run perform
diagnosis and delete it from the live set (lines 435-494). Also returns the
finalized runs so the kill flag is observable.
-/
def monitorIteration (now timeout : Nat) (st : MonitorState) :
    MonitorState × List RunInfo :=
  let scanned := monitorScan now timeout st.processes st
  let st2 := scanned.2.foldl diagnose scanned.1
  ({ st2 with
     processes :=
       st2.processes.filter (fun q => scanned.2.all (fun f => f.pid != q.pid)) },
   scanned.2)

/-! ## Helper lemmas about the embedded Python string operations -/

theorem mem_of_isPrefixOfChars :
    ∀ (needle hay : List Char), isPrefixOfChars needle hay = true →
      ∀ c ∈ needle, c ∈ hay := by
  intro needle
  induction needle with
  | nil => intro hay _ c hc; cases hc
  | cons a as ih =>
    intro hay h c hc
    cases hay with
    | nil => simp [isPrefixOfChars] at h
    | cons b bs =>
      rw [isPrefixOfChars, Bool.and_eq_true, beq_iff_eq] at h
      rcases List.mem_cons.mp hc with hc | hc
      · exact hc ▸ h.1 ▸ List.mem_cons_self b bs
      · exact List.mem_cons_of_mem b (ih bs h.2 c hc)

theorem mem_of_containsSub :
    ∀ (hay needle : List Char), containsSub hay needle = true →
      ∀ c ∈ needle, c ∈ hay := by
  intro hay
  induction hay with
  | nil =>
    intro needle h c hc
    cases needle with
    | nil => cases hc
    | cons x xs => simp [containsSub, isPrefixOfChars] at h
  | cons b bs ih =>
    intro needle h c hc
    rw [containsSub, Bool.or_eq_true] at h
    rcases h with h | h
    · exact mem_of_isPrefixOfChars needle (b :: bs) h c hc
    · exact List.mem_cons_of_mem b (ih needle h c hc)

theorem all_ws_of_dropWs_nil :
    ∀ l : List Char, dropWs l = [] → ∀ c ∈ l, isPyWs c = true := by
  intro l
  induction l with
  | nil => intro _ c hc; cases hc
  | cons a t ih =>
    intro h c hc
    rw [dropWs] at h
    by_cases ha : isPyWs a = true
    · rw [if_pos ha] at h
      rcases List.mem_cons.mp hc with hc | hc
      · exact hc ▸ ha
      · exact ih h c hc
    · rw [if_neg ha] at h
      cases h

theorem all_ws_through_dropWs :
    ∀ l : List Char, (∀ c ∈ dropWs l, isPyWs c = true) → ∀ c ∈ l, isPyWs c = true := by
  intro l
  induction l with
  | nil => intro _ c hc; cases hc
  | cons a t ih =>
    intro h c hc
    by_cases ha : isPyWs a = true
    · rcases List.mem_cons.mp hc with hc | hc
      · exact hc ▸ ha
      · exact ih (by rw [dropWs, if_pos ha] at h; exact h) c hc
    · rw [dropWs, if_neg ha] at h
      exact h c hc

theorem all_ws_of_stripChars_nil (l : List Char) (h : stripChars l = []) :
    ∀ c ∈ l, isPyWs c = true := by
  rw [stripChars, List.reverse_eq_nil_iff] at h
  have h2 : ∀ c ∈ (dropWs l).reverse, isPyWs c = true := all_ws_of_dropWs_nil _ h
  have h3 : ∀ c ∈ dropWs l, isPyWs c = true := by
    intro c hc; exact h2 c (List.mem_reverse.mpr hc)
  exact all_ws_through_dropWs l h3

theorem pyLowerChar_of_ws (d : Char) (h : isPyWs d = true) : isPyWs (pyLowerChar d) = true := by
  rw [isPyWs] at h
  simp only [Bool.or_eq_true, beq_iff_eq] at h
  rcases h with ((((h | h) | h) | h) | h) | h <;> subst h <;> decide

theorem all_ws_pyLower_of_strip_empty (s : String) (hs : pyStrip s = "") :
    ∀ c ∈ (pyLower s).data, isPyWs c = true := by
  have hl : stripChars s.data = [] := by
    have := congrArg String.data hs
    simpa [pyStrip] using this
  have hws : ∀ c ∈ s.data, isPyWs c = true := all_ws_of_stripChars_nil s.data hl
  intro c hc
  rcases List.mem_map.mp hc with ⟨d, hd, hdc⟩
  exact hdc ▸ pyLowerChar_of_ws d (hws d hd)

theorem no_marker_of_strip_empty (s : String) (hs : pyStrip s = "")
    (marker : String) (c0 : Char) (hc0 : c0 ∈ marker.data) (hc0ws : isPyWs c0 = false) :
    pyIn marker (pyLower s) = false := by
  by_contra hcon
  rw [Bool.not_eq_false] at hcon
  have : c0 ∈ (pyLower s).data := mem_of_containsSub _ _ hcon c0 hc0
  have := all_ws_pyLower_of_strip_empty s hs c0 this
  rw [this] at hc0ws
  cases hc0ws

theorem pyTake_length_le (s : String) (n : Nat) : (pyTake s n).length ≤ n :=
  List.length_take_le n s.data

theorem splitFuel_no_occurrence :
    ∀ (fuel : Nat) (l sep acc : List Char), containsSub l sep = false →
      splitFuel fuel l sep acc = [acc.reverse ++ l] := by
  intro fuel
  induction fuel with
  | zero =>
    intro l sep acc _
    cases l with
    | nil => simp [splitFuel]
    | cons c t => simp [splitFuel]
  | succ n ih =>
    intro l sep acc h
    cases l with
    | nil => simp [splitFuel]
    | cons c t =>
      rw [containsSub, Bool.or_eq_false_iff] at h
      rw [splitFuel, if_neg (by rw [h.1]; exact Bool.false_ne_true)]
      rw [ih t sep (c :: acc) h.2]
      simp

theorem pySplit_no_marker (s sep : String) (h : containsSub s.data sep.data = false) :
    pySplit s sep = [s] := by
  rw [pySplit, splitFuel_no_occurrence _ _ _ _ h]
  simp


/-! ## Claims about Diagnosis (`extract_failure_reason`) -/

/--
C4 counterexample. A test writing `"Error: disk full"` to stderr and exiting 1
is classified FAILED, but the extracted failure reason is the WHOLE string
`"Error: disk full"`, not `"disk full"`: the membership check lowercases the
text, while `split("error:")` runs on the original text, where the lowercase
marker does not occur.
-/
theorem error_marker_case_mismatch :
    classifyExit 1 = "FAIL" ∧
    extract_failure_reason "" "Error: disk full" = "Error: disk full" ∧
    ("Error: disk full" : String) ≠ "disk full" := by decide

/--
C4 (amended): when stderr matches the case-insensitive `"error:"` check but
contains no case-sensitive occurrence of `"error:"`, the run is classified
FAILED and the extracted reason is the whole stderr, stripped and truncated
to 1000 characters — `split` finds nothing to split, so the last piece is
the full text.
-/
theorem mixedcase_error_returns_whole_stderr (stdout stderr : String)
    (h1 : pyIn "error:" (pyLower stderr) = true)
    (h2 : containsSub stderr.data ("error:".data) = false) :
    classifyExit 1 = "FAIL" ∧
    extract_failure_reason stdout stderr = pyTake (pyStrip stderr) 1000 := by
  refine ⟨by decide, ?_⟩
  have hsplit : pySplit stderr "error:" = [stderr] := pySplit_no_marker _ _ h2
  rw [extract_failure_reason, if_pos (by rw [h1]), hsplit]
  rfl

/-- Witness for the amended C4 theorem at the spec's concrete input. -/
theorem mixedcase_error_witness :
    extract_failure_reason "" "Error: disk full" = pyTake (pyStrip "Error: disk full") 1000 :=
  (mixedcase_error_returns_whole_stderr "" "Error: disk full" (by decide) (by decide)).2

/--
C7 counterexample. The function can return the exact sentinel string
`"Unknown failure reason"` through the stderr-fallback branch even though
stderr is non-empty after stripping, so "returns the sentinel exactly when
both inputs strip to empty" fails as an equivalence on output values.
-/
theorem sentinel_coincidence :
    extract_failure_reason "" "Unknown failure reason" = "Unknown failure reason" ∧
    pyStrip "Unknown failure reason" ≠ "" := by decide

/--
C7 (amended): `extract_failure_reason` is a total function whose result never
exceeds 1000 characters, and whenever both stdout and stderr are empty after
stripping whitespace (in which case no priority marker can match) it returns
the fixed sentinel `"Unknown failure reason"`.
-/
theorem extract_total_and_sentinel (stdout stderr : String) :
    (extract_failure_reason stdout stderr).length ≤ 1000 ∧
    (pyStrip stdout = "" → pyStrip stderr = "" →
      extract_failure_reason stdout stderr = "Unknown failure reason") := by
  constructor
  · rw [extract_failure_reason]
    repeat' split
    all_goals first
    | exact pyTake_length_le _ 1000
    | decide
  · intro h1 h2
    have e1 : pyIn "error:" (pyLower stderr) = false :=
      no_marker_of_strip_empty stderr h2 "error:" 'e' (by decide) (by decide)
    have f1 : pyIn "failed:" (pyLower stdout) = false :=
      no_marker_of_strip_empty stdout h1 "failed:" 'f' (by decide) (by decide)
    have a1 : pyIn "assertion failed" (pyLower stderr) = false :=
      no_marker_of_strip_empty stderr h2 "assertion failed" 'a' (by decide) (by decide)
    rw [extract_failure_reason]
    simp [e1, f1, a1, h1, h2]

/-- Witness for the amended C7 theorem at empty inputs. -/
theorem extract_sentinel_witness :
    (extract_failure_reason "" "").length ≤ 1000 ∧
    extract_failure_reason "" "" = "Unknown failure reason" :=
  ⟨(extract_total_and_sentinel "" "").1,
   (extract_total_and_sentinel "" "").2 (by decide) (by decide)⟩

/--
C8 counterexample. With stderr free of any `"error:"` marker and stdout
`"FAILED: oops"`, the case-insensitive `"failed:"` check matches, but the
function returns the whole stdout rather than the text following the last
case-insensitive marker (`"oops"`): the split marker is case-sensitive.
-/
theorem failed_marker_case_mismatch :
    pyIn "error:" (pyLower "") = false ∧
    pyIn "failed:" (pyLower "FAILED: oops") = true ∧
    extract_failure_reason "FAILED: oops" "" = "FAILED: oops" ∧
    ("FAILED: oops" : String) ≠ "oops" := by decide

/--
C8 (amended): when stderr contains no case-insensitive `"error:"` marker the
remaining fixed priority order is applied — case-insensitive `"failed:"` in
stdout (splitting on the case-sensitive lowercase marker, so the whole stdout
comes back when only differently-cased occurrences exist), then
case-insensitive `"assertion failed"` in stderr (same case-sensitivity
caveat), then non-blank stderr stripped, then non-blank stdout stripped,
then the sentinel; every extracted text is stripped and truncated to 1000
characters.
-/
theorem extract_priority_order (stdout stderr : String)
    (hne : pyIn "error:" (pyLower stderr) = false) :
    (pyIn "failed:" (pyLower stdout) = true →
      extract_failure_reason stdout stderr =
        pyTake (pyStrip ((pySplit stdout "failed:").getLastD stdout)) 1000) ∧
    (pyIn "failed:" (pyLower stdout) = false →
     pyIn "assertion failed" (pyLower stderr) = true →
      extract_failure_reason stdout stderr =
        pyTake (pyStrip ((pySplit stderr "assertion failed").getLastD stderr)) 1000) ∧
    (pyIn "failed:" (pyLower stdout) = false →
     pyIn "assertion failed" (pyLower stderr) = false →
     pyStrip stderr ≠ "" →
      extract_failure_reason stdout stderr = pyTake (pyStrip stderr) 1000) ∧
    (pyIn "failed:" (pyLower stdout) = false →
     pyIn "assertion failed" (pyLower stderr) = false →
     pyStrip stderr = "" → pyStrip stdout ≠ "" →
      extract_failure_reason stdout stderr = pyTake (pyStrip stdout) 1000) ∧
    (pyIn "failed:" (pyLower stdout) = false →
     pyIn "assertion failed" (pyLower stderr) = false →
     pyStrip stderr = "" → pyStrip stdout = "" →
      extract_failure_reason stdout stderr = "Unknown failure reason") := by
  refine ⟨?_, ?_, ?_, ?_, ?_⟩
  · intro hf
    rw [extract_failure_reason]
    simp [hne, hf]
  · intro hf ha
    rw [extract_failure_reason]
    simp [hne, hf, ha]
  · intro hf ha hs
    rw [extract_failure_reason]
    simp [hne, hf, ha, hs]
  · intro hf ha hs ho
    rw [extract_failure_reason]
    simp [hne, hf, ha, hs, ho]
  · intro hf ha hs ho
    rw [extract_failure_reason]
    simp [hne, hf, ha, hs, ho]

/-- Witness for the C8 priority-order theorem on a lowercase marker. -/
theorem extract_priority_witness :
    extract_failure_reason "x failed: boom" "" = "boom" := by
  have h := (extract_priority_order "x failed: boom" "" (by decide)).1 (by decide)
  rw [h]; decide

/-! ## Claims about workspace isolation -/

/--
C5 counterexample. Two distinct test names, `"a b"` and `"a_b"`, sanitize to
the same directory name, so two concurrently-active TestRuns for those tests
share one workspace directory under `testing/`.
-/
theorem workspace_collision :
    ("a b" : String) ≠ "a_b" ∧ workspacePath "a b" = workspacePath "a_b" := by decide

/--
C5 (amended): in `test_runner.py`, two TestRuns occupy distinct workspace
directories exactly when their sanitized names (spaces replaced by
underscores) differ; names that sanitize identically share one directory.
-/
theorem workspace_distinct_iff (n1 n2 : String) :
    workspacePath n1 = workspacePath n2 ↔ sanitize n1 = sanitize n2 := by
  simp [workspacePath]

/-! ## Claims about test selection -/

theorem lookup_testsMappingAux_mem :
    ∀ (l : List TestEntry) (i : Nat) (num nm : String),
      (testsMappingAux i l).lookup num = some nm → ∃ t ∈ l, t.name = nm := by
  intro l
  induction l with
  | nil => intro i num nm h; simp [testsMappingAux, List.lookup] at h
  | cons t ts ih =>
    intro i num nm h
    rw [testsMappingAux] at h
    cases hk : num == toString (i + 1) with
    | true =>
      simp [List.lookup, hk] at h
      exact ⟨t, List.mem_cons_self t ts, h⟩
    | false =>
      simp only [List.lookup, hk] at h
      rcases ih (i + 1) num nm h with ⟨u, hu, hn⟩
      exact ⟨u, List.mem_cons_of_mem t hu, hn⟩

/--
C9: in single-test mode with no `-t` argument, an input stream that yields
end of file or only a whitespace response makes the harness exit with an
error (modelled by `Except.error`, which in `test_runner.py` lines 304/322
is a logged error followed by `sys.exit(1)`) and launch zero child
processes.
-/
theorem empty_input_single_mode_exits (tests : List TestEntry)
    (stdinLine : Option String)
    (h : ∀ s, stdinLine = some s → pyStrip s = "") :
    (singleSelect tests none stdinLine).toOption = none ∧
    launchedTests (singleSelect tests none stdinLine) = [] := by
  cases stdinLine with
  | none => simp [singleSelect, promptedNumber, launchedTests, Except.toOption]
  | some s =>
    have hs := h s rfl
    simp [singleSelect, promptedNumber, hs, launchedTests, Except.toOption]

/-- Witness for the C9 theorem: closed input stream, one discovered test. -/
theorem empty_input_witness :
    (singleSelect [⟨"x", "p"⟩] none none).toOption = none ∧
    launchedTests (singleSelect [⟨"x", "p"⟩] none none) = [] :=
  empty_input_single_mode_exits [⟨"x", "p"⟩] none (fun _ hs => Option.noConfusion hs)

/--
C10: in single-test mode, a valid ordinal whose name is shared by several
discovered tests selects every test bearing that name: selection filters
the catalog by name equality, not by ordinal.
-/
theorem duplicate_names_all_launched (tests : List TestEntry) (num nm : String)
    (stdinLine : Option String) (hnum : num ≠ "")
    (hlk : (testsMapping tests).lookup num = some nm) :
    singleSelect tests (some num) stdinLine =
      Except.ok (tests.filter (fun t => t.name == nm)) ∧
    ∀ t ∈ tests, t.name = nm →
      t ∈ launchedTests (singleSelect tests (some num) stdinLine) := by
  obtain ⟨t0, ht0, ht0n⟩ := lookup_testsMappingAux_mem tests 0 num nm hlk
  have hmemf : t0 ∈ tests.filter (fun t => t.name == nm) :=
    List.mem_filter.mpr ⟨ht0, by simp [ht0n]⟩
  have hne : (tests.filter (fun t => t.name == nm)).isEmpty = false := by
    cases hfe : (tests.filter (fun t => t.name == nm)).isEmpty with
    | false => rfl
    | true =>
      rw [List.isEmpty_iff] at hfe
      rw [hfe] at hmemf
      cases hmemf
  have hsel : singleSelect tests (some num) stdinLine =
      Except.ok (tests.filter (fun t => t.name == nm)) := by
    rw [singleSelect]
    simp only [if_pos hnum, hlk, hne]
    simp [hnum]
  refine ⟨hsel, ?_⟩
  intro t ht htn
  rw [hsel]
  exact List.mem_filter.mpr ⟨ht, by simp [htn]⟩

/-- Witness for the C10 theorem: two scripts report the same name; ordinal 1
resolves to that name and both tests are selected and launched. -/
theorem duplicate_names_witness :
    singleSelect [⟨"x", "p1"⟩, ⟨"x", "p2"⟩] (some "1") none =
      Except.ok [⟨"x", "p1"⟩, ⟨"x", "p2"⟩] ∧
    (launchedTests (singleSelect [⟨"x", "p1"⟩, ⟨"x", "p2"⟩] (some "1") none)).length = 2 := by
  have h := duplicate_names_all_launched [⟨"x", "p1"⟩, ⟨"x", "p2"⟩] "1" "x" none
    (by decide) (by decide)
  constructor
  · rw [h.1]; rfl
  · rw [h.1]; rfl

/--
C6: requesting test number 0 in `e2e_test_runner.py` / `integration_test_runner.py`
does NOT produce the range error: `if not args.test:` treats the integer 0 as
"no test requested" (Python falsiness) and runs ALL tests, so the range check
`args.test < 1` is unreachable for 0. A request of N+1 does hit the range
error. In `test_runner.py`, by contrast, the string `"0"` is not a key of
`tests_mapping`, so selection errors out and launches nothing.
-/
theorem zero_test_number_runs_all (n : Nat) :
    e2eSelect n (some 0) = SelAction.runAll ∧
    e2eSelect n (some ((n : Int) + 1)) = SelAction.rangeError ∧
    (singleSelect [⟨"x", "p"⟩] (some "0") none).toOption = none ∧
    launchedTests (singleSelect [⟨"x", "p"⟩] (some "0") none) = [] := by
  refine ⟨?_, ?_, by decide, by decide⟩
  · simp [e2eSelect, pyTruthyInt]
  · have h1 : pyTruthyInt (some ((n : Int) + 1)) = true := by
      simp only [pyTruthyInt, bne_iff_ne, ne_eq]
      omega
    rw [e2eSelect, if_neg (by rw [h1]; exact fun hc => Bool.noConfusion hc)]
    have h2 : ((n : Int) + 1 < 1 ∨ (n : Int) + 1 > (n : Int)) := by omega
    simp only [if_pos h2]

/-! ## Claims about reporting and the overall exit code -/

theorem pyIn_FAIL_iff_not_pass (o : Outcome) :
    pyIn "FAIL" (statusOf o) = false ↔ statusOf o = "PASS" := by
  cases o with
  | timedOut => decide
  | exited c =>
    by_cases hc : c = 0
    · simp only [statusOf, classifyExit, if_pos hc]
      decide
    · simp only [statusOf, classifyExit, if_neg hc]
      decide

/--
C1: with at least one test executed, the harness's overall process exit code
is 0 exactly when every executed test's final status is `"PASS"`; a single
`"FAIL"` or `"FAIL (Timeout)"` (any status containing `"FAIL"`) forces exit
code 1.
-/
theorem exit_code_zero_iff_all_passed (runs : List (String × Outcome))
    (_hne : runs ≠ []) :
    (overallExitCode (runs.map (fun r => (r.1, statusOf r.2))) = 0 ↔
      ∀ r ∈ runs, statusOf r.2 = "PASS") ∧
    ((∃ r ∈ runs, statusOf r.2 ≠ "PASS") →
      overallExitCode (runs.map (fun r => (r.1, statusOf r.2))) = 1) := by
  have h2 : allPassed (runs.map (fun r => (r.1, statusOf r.2))) = true ↔
      ∀ r ∈ runs, statusOf r.2 = "PASS" := by
    rw [allPassed, List.all_eq_true]
    constructor
    · intro h r hr
      have := h (r.1, statusOf r.2) (List.mem_map.mpr ⟨r, hr, rfl⟩)
      simp only [Bool.not_eq_true'] at this
      exact (pyIn_FAIL_iff_not_pass r.2).mp this
    · intro h p hp
      rcases List.mem_map.mp hp with ⟨r, hr, rfl⟩
      simp only [Bool.not_eq_true']
      exact (pyIn_FAIL_iff_not_pass r.2).mpr (h r hr)
  constructor
  · constructor
    · intro h0
      by_cases hap : allPassed (runs.map (fun r => (r.1, statusOf r.2))) = true
      · exact h2.mp hap
      · rw [overallExitCode, if_neg hap] at h0
        cases h0
    · intro hall
      rw [overallExitCode, if_pos (h2.mpr hall)]
  · rintro ⟨r, hr, hrne⟩
    rw [overallExitCode, if_neg]
    intro hap
    exact hrne (h2.mp hap r hr)

/-- Witness for the C1 theorem: a single passing test gives exit code 0. -/
theorem exit_code_witness :
    overallExitCode ([(("t1" : String), Outcome.exited 0)].map
      (fun r => (r.1, statusOf r.2))) = 0 := by
  have h := exit_code_zero_iff_all_passed [("t1", Outcome.exited 0)] (by decide)
  exact h.1.mpr (by decide)

theorem lookup_eq_of_perm :
    ∀ {l1 l2 : List (String × String)}, l1.Perm l2 →
      ∀ k : String, (l2.map Prod.fst).Nodup → l1.lookup k = l2.lookup k := by
  intro l1 l2 h
  induction h with
  | nil => intro k _; rfl
  | @cons p t1 t2 h ih =>
    intro k nd
    rw [List.map_cons, List.nodup_cons] at nd
    obtain ⟨a, b⟩ := p
    cases hk : k == a with
    | true => simp [List.lookup, hk]
    | false => simp only [List.lookup, hk]; exact ih k nd.2
  | @swap x y l =>
    intro k nd
    obtain ⟨a1, b1⟩ := x
    obtain ⟨a2, b2⟩ := y
    rw [List.map_cons, List.map_cons, List.nodup_cons, List.mem_cons] at nd
    have hne : a1 ≠ a2 := fun hc => nd.1 (Or.inl hc)
    cases hk1 : k == a1 with
    | true =>
      have : k = a1 := beq_iff_eq.mp hk1
      have hk2 : (k == a2) = false := by
        rw [beq_eq_false_iff_ne]
        exact this ▸ hne
      simp [List.lookup, hk1, hk2]
    | false =>
      cases hk2 : k == a2 with
      | true => simp [List.lookup, hk1, hk2]
      | false => simp [List.lookup, hk1, hk2]
  | @trans l1 lmid l2 h1 h2 ih1 ih2 =>
    intro k nd
    have ndmid : (lmid.map Prod.fst).Nodup :=
      ((h2.map Prod.fst).nodup_iff).mpr nd
    exact (ih1 k ndmid).trans (ih2 k nd)

/--
C2: with pairwise-distinct discovered test names, the final report has
exactly one line per discovered test, in discovery order; a test that never
executed (absent from `results`) is reported as `"NOT RUN"`; and the report
is unchanged under any permutation of the completion order in which results
were recorded.
-/
theorem report_enumerates_all_tests (tests : List String)
    (results : List (String × String))
    (_htests : tests.Nodup) (hkeys : (results.map Prod.fst).Nodup) :
    (reportLines tests results).map Prod.fst = tests ∧
    (reportLines tests results).length = tests.length ∧
    (∀ n ∈ tests, results.lookup n = none →
      (n, "NOT RUN") ∈ reportLines tests results) ∧
    (∀ results2 : List (String × String), results2.Perm results →
      reportLines tests results2 = reportLines tests results) := by
  refine ⟨?_, ?_, ?_, ?_⟩
  · rw [reportLines, List.map_map]
    exact List.map_id tests
  · rw [reportLines, List.length_map]
  · intro n hn hlk
    rw [reportLines]
    exact List.mem_map.mpr ⟨n, hn, by rw [hlk]; rfl⟩
  · intro results2 hperm
    have hlk : ∀ k, results2.lookup k = results.lookup k :=
      fun k => lookup_eq_of_perm hperm k hkeys
    simp only [reportLines, hlk]

/-- Witness for the C2 theorem: two discovered tests, one executed; the
never-executed test appears first, as `"NOT RUN"`. -/
theorem report_witness :
    (reportLines ["a", "b"] [("b", "PASS")]).map Prod.fst = ["a", "b"] ∧
    (("a" : String), ("NOT RUN" : String)) ∈ reportLines ["a", "b"] [("b", "PASS")] := by
  have h := report_enumerates_all_tests ["a", "b"] [("b", "PASS")] (by decide) (by decide)
  exact ⟨h.1, h.2.2.1 "a" (by decide) (by decide)⟩

/-! ## Claims about the monitoring loop -/

theorem dUpd_self (m : String → Option String) (k v : String) :
    dUpd m k v k = some v := by rw [dUpd, if_pos rfl]

theorem dUpd_ne (m : String → Option String) (k v x : String) (h : x ≠ k) :
    dUpd m k v x = m x := by rw [dUpd, if_neg h]

theorem scanStep_untouched (now timeout : Nat) (st : MonitorState) (r : RunInfo)
    (k : String) (hk : r.name ≠ k) :
    (scanStep now timeout st r).1.results k = st.results k ∧
    (scanStep now timeout st r).1.reasons k = st.reasons k := by
  obtain ⟨pid, name, st0, state, kl, so, se⟩ := r
  cases state with
  | running =>
    by_cases hto : now - st0 > timeout
    · refine ⟨?_, ?_⟩
      · simp only [scanStep, if_pos hto]
        exact dUpd_ne _ _ _ _ (Ne.symm hk)
      · simp only [scanStep, if_pos hto]
        exact dUpd_ne _ _ _ _ (Ne.symm hk)
    · refine ⟨?_, ?_⟩
      · simp only [scanStep, if_neg hto]
      · simp only [scanStep, if_neg hto]
  | exited c =>
    refine ⟨?_, ?_⟩
    · simp only [scanStep]
      exact dUpd_ne _ _ _ _ (Ne.symm hk)
    · simp only [scanStep]

theorem scanStep_processes (now timeout : Nat) (st : MonitorState) (r : RunInfo) :
    (scanStep now timeout st r).1.processes = st.processes := by
  obtain ⟨pid, name, st0, state, kl, so, se⟩ := r
  cases state with
  | running =>
    by_cases hto : now - st0 > timeout
    · simp only [scanStep, if_pos hto]
    · simp only [scanStep, if_neg hto]
  | exited c => simp only [scanStep]

theorem scanStep_fin_name (now timeout : Nat) (st : MonitorState) (r fin : RunInfo)
    (h : (scanStep now timeout st r).2 = some fin) :
    fin.name = r.name ∧ fin.pid = r.pid := by
  obtain ⟨pid, name, st0, state, kl, so, se⟩ := r
  cases state with
  | running =>
    by_cases hto : now - st0 > timeout
    · simp only [scanStep, if_pos hto, Option.some.injEq] at h
      rw [← h]
      exact ⟨rfl, rfl⟩
    · simp only [scanStep, if_neg hto] at h
      cases h
  | exited c =>
    simp only [scanStep, Option.some.injEq] at h
    rw [← h]
    exact ⟨rfl, rfl⟩

theorem scanStep_timeout (now timeout : Nat) (st : MonitorState) (r : RunInfo)
    (hrun : r.state = ProcState.running) (hto : now - r.startTime > timeout) :
    scanStep now timeout st r =
      ({ st with
         results := dUpd st.results r.name "FAIL (Timeout)",
         reasons := dUpd st.reasons r.name (timeoutMsg timeout) },
       some { r with killed := true }) := by
  rw [scanStep]
  rw [hrun]
  rw [if_pos hto]

theorem monitorScan_untouched (now timeout : Nat) :
    ∀ (l : List RunInfo) (st : MonitorState) (k : String),
      (∀ q ∈ l, q.name ≠ k) →
      (monitorScan now timeout l st).1.results k = st.results k ∧
      (monitorScan now timeout l st).1.reasons k = st.reasons k := by
  intro l
  induction l with
  | nil => intro st k _; exact ⟨rfl, rfl⟩
  | cons a rs ih =>
    intro st k h
    have ha : a.name ≠ k := h a (List.mem_cons_self a rs)
    have hrs : ∀ q ∈ rs, q.name ≠ k := fun q hq => h q (List.mem_cons_of_mem a hq)
    have hstep := scanStep_untouched now timeout st a k ha
    cases hstep2 : scanStep now timeout st a with
    | mk st1 fin? =>
      rw [hstep2] at hstep
      rw [monitorScan, hstep2]
      cases fin? with
      | none =>
        rcases ih st1 k hrs with ⟨h1, h2⟩
        exact ⟨h1.trans hstep.1, h2.trans hstep.2⟩
      | some fin =>
        rcases ih st1 k hrs with ⟨h1, h2⟩
        exact ⟨h1.trans hstep.1, h2.trans hstep.2⟩

theorem monitorScan_processes (now timeout : Nat) :
    ∀ (l : List RunInfo) (st : MonitorState),
      (monitorScan now timeout l st).1.processes = st.processes := by
  intro l
  induction l with
  | nil => intro st; rfl
  | cons a rs ih =>
    intro st
    have hp := scanStep_processes now timeout st a
    cases hstep2 : scanStep now timeout st a with
    | mk st1 fin? =>
      rw [hstep2] at hp
      rw [monitorScan, hstep2]
      cases fin? with
      | none => exact (ih st1).trans hp
      | some fin => exact (ih st1).trans hp

theorem monitorScan_fin_names (now timeout : Nat) :
    ∀ (l : List RunInfo) (st : MonitorState) (q : RunInfo),
      q ∈ (monitorScan now timeout l st).2 → ∃ p ∈ l, q.name = p.name := by
  intro l
  induction l with
  | nil =>
    intro st q hq
    exact absurd hq (List.not_mem_nil q)
  | cons a rs ih =>
    intro st q hq
    cases hstep2 : scanStep now timeout st a with
    | mk st1 fin? =>
      rw [monitorScan, hstep2] at hq
      cases fin? with
      | none =>
        rcases ih st1 q hq with ⟨p, hp, hn⟩
        exact ⟨p, List.mem_cons_of_mem a hp, hn⟩
      | some fin =>
        rcases List.mem_cons.mp hq with hq | hq
        · have hf := scanStep_fin_name now timeout st a fin (by rw [hstep2])
          exact ⟨a, List.mem_cons_self a rs, hq ▸ hf.1⟩
        · rcases ih st1 q hq with ⟨p, hp, hn⟩
          exact ⟨p, List.mem_cons_of_mem a hp, hn⟩

theorem monitorScan_timeout (now timeout : Nat) :
    ∀ (l : List RunInfo) (st : MonitorState) (r : RunInfo),
      r ∈ l → (l.map RunInfo.name).Nodup →
      r.state = ProcState.running → now - r.startTime > timeout →
      (monitorScan now timeout l st).1.results r.name = some "FAIL (Timeout)" ∧
      (monitorScan now timeout l st).1.reasons r.name = some (timeoutMsg timeout) ∧
      { r with killed := true } ∈ (monitorScan now timeout l st).2 := by
  intro l
  induction l with
  | nil => intro st r hr; cases hr
  | cons a rs ih =>
    intro st r hr hnd hrun hto
    rw [List.map_cons, List.nodup_cons] at hnd
    rcases List.mem_cons.mp hr with heq | hmem
    · subst heq
      have hstep := scanStep_timeout now timeout st r hrun hto
      rw [monitorScan, hstep]
      have hrs : ∀ q ∈ rs, q.name ≠ r.name := by
        intro q hq hc
        exact hnd.1 (hc ▸ List.mem_map_of_mem RunInfo.name hq)
      rcases monitorScan_untouched now timeout rs _ r.name hrs with ⟨h1, h2⟩
      refine ⟨?_, ?_, List.mem_cons_self _ _⟩
      · rw [h1]; exact dUpd_self _ _ _
      · rw [h2]; exact dUpd_self _ _ _
    · cases hstep2 : scanStep now timeout st a with
      | mk st1 fin? =>
        rw [monitorScan, hstep2]
        cases fin? with
        | none => exact ih st1 r hmem hnd.2 hrun hto
        | some fin =>
          rcases ih st1 r hmem hnd.2 hrun hto with ⟨h1, h2, h3⟩
          exact ⟨h1, h2, List.mem_cons_of_mem fin h3⟩

theorem diagnose_results (st : MonitorState) (r : RunInfo) :
    (diagnose st r).results = st.results ∧ (diagnose st r).processes = st.processes := by
  rw [diagnose]
  split
  · split
    · exact ⟨rfl, rfl⟩
    · exact ⟨rfl, rfl⟩
  · exact ⟨rfl, rfl⟩

theorem diagnose_reasons_ne (st : MonitorState) (r : RunInfo) (k : String)
    (h : r.name ≠ k) : (diagnose st r).reasons k = st.reasons k := by
  rw [diagnose]
  split
  · split
    · exact dUpd_ne _ _ _ _ (Ne.symm h)
    · rfl
  · rfl

theorem diagnose_timeout_skip (st : MonitorState) (r : RunInfo)
    (h : st.results r.name = some "FAIL (Timeout)") : diagnose st r = st := by
  rw [diagnose, if_pos (by rw [h]; simp), if_neg (by rw [h]; simp)]

theorem foldl_diagnose_results :
    ∀ (fins : List RunInfo) (st : MonitorState),
      (fins.foldl diagnose st).results = st.results ∧
      (fins.foldl diagnose st).processes = st.processes := by
  intro fins
  induction fins with
  | nil => intro st; exact ⟨rfl, rfl⟩
  | cons q fs ih =>
    intro st
    rw [List.foldl_cons]
    have hd := diagnose_results st q
    rcases ih (diagnose st q) with ⟨h1, h2⟩
    exact ⟨h1.trans hd.1, h2.trans hd.2⟩

theorem foldl_diagnose_timeout_reason :
    ∀ (fins : List RunInfo) (st : MonitorState) (k : String),
      st.results k = some "FAIL (Timeout)" →
      (fins.foldl diagnose st).reasons k = st.reasons k := by
  intro fins
  induction fins with
  | nil => intro st k _; rfl
  | cons q fs ih =>
    intro st k h
    rw [List.foldl_cons]
    by_cases hq : q.name = k
    · have hskip : diagnose st q = st := diagnose_timeout_skip st q (by rw [hq]; exact h)
      rw [hskip]
      exact ih st k h
    · have h1 : (diagnose st q).reasons k = st.reasons k := diagnose_reasons_ne st q k hq
      have h2 : (diagnose st q).results k = some "FAIL (Timeout)" := by
        rw [congrFun (diagnose_results st q).1 k]
        exact h
      exact (ih (diagnose st q) k h2).trans h1

theorem foldl_diagnose_reasons_ne :
    ∀ (fins : List RunInfo) (st : MonitorState) (k : String),
      (∀ q ∈ fins, q.name ≠ k) →
      (fins.foldl diagnose st).reasons k = st.reasons k := by
  intro fins
  induction fins with
  | nil => intro st k _; rfl
  | cons q fs ih =>
    intro st k h
    rw [List.foldl_cons]
    have hq : q.name ≠ k := h q (List.mem_cons_self q fs)
    have hfs : ∀ p ∈ fs, p.name ≠ k := fun p hp => h p (List.mem_cons_of_mem q hp)
    exact (ih (diagnose st q) k hfs).trans (diagnose_reasons_ne st q k hq)

/--
C3: in the iteration of the monitoring loop at which a still-live test
process exceeds its wall-clock budget (test names being unique within the
run, as discovery numbering assumes), the process is killed, its status
becomes `'FAIL (Timeout)'`, its failure reason becomes the fixed
`"Test timed out after N seconds"` message, it leaves the live set, and the
diagnosis step never overwrites that reason — neither in this iteration nor
in any later iteration (in which the name is no longer live).
-/
theorem timeout_kills_and_reason_fixed (st : MonitorState) (now timeout : Nat)
    (r : RunInfo)
    (hnodup : (st.processes.map RunInfo.name).Nodup)
    (hmem : r ∈ st.processes)
    (hrun : r.state = ProcState.running)
    (hto : now - r.startTime > timeout) :
    (monitorIteration now timeout st).1.results r.name = some "FAIL (Timeout)" ∧
    (monitorIteration now timeout st).1.reasons r.name = some (timeoutMsg timeout) ∧
    (∃ q ∈ (monitorIteration now timeout st).2,
      q.pid = r.pid ∧ q.name = r.name ∧ q.killed = true) ∧
    (∀ p ∈ (monitorIteration now timeout st).1.processes, p.name ≠ r.name) ∧
    (∀ (now2 : Nat) (st2 : MonitorState),
      (∀ p ∈ st2.processes, p.name ≠ r.name) →
      (monitorIteration now2 timeout st2).1.reasons r.name = st2.reasons r.name) := by
  rcases monitorScan_timeout now timeout st.processes st r hmem hnodup hrun hto
    with ⟨hres, hrea, hfin⟩
  refine ⟨?_, ?_, ?_, ?_, ?_⟩
  · exact (congrFun (foldl_diagnose_results
      (monitorScan now timeout st.processes st).2
      (monitorScan now timeout st.processes st).1).1 r.name).trans hres
  · exact (foldl_diagnose_timeout_reason
      (monitorScan now timeout st.processes st).2
      (monitorScan now timeout st.processes st).1 r.name hres).trans hrea
  · exact ⟨{ r with killed := true }, hfin, rfl, rfl, rfl⟩
  · intro p hp hpname
    have hp2 : p ∈ ((monitorScan now timeout st.processes st).2.foldl diagnose
        (monitorScan now timeout st.processes st).1).processes.filter
        (fun q => (monitorScan now timeout st.processes st).2.all
          (fun f => f.pid != q.pid)) := hp
    rcases List.mem_filter.mp hp2 with ⟨hpmem, hppred⟩
    rw [(foldl_diagnose_results _ _).2,
      monitorScan_processes now timeout st.processes st] at hpmem
    have hpr : p = r :=
      List.inj_on_of_nodup_map hnodup hpmem hmem hpname
    have hall := List.all_eq_true.mp hppred { r with killed := true } hfin
    have hbne : (({ r with killed := true } : RunInfo).pid != p.pid) = false := by
      rw [hpr]
      exact bne_self_eq_false r.pid
    rw [hbne] at hall
    cases hall
  · intro now2 st2 hnone
    have hfin2 : ∀ q ∈ (monitorScan now2 timeout st2.processes st2).2,
        q.name ≠ r.name := by
      intro q hq hc
      rcases monitorScan_fin_names now2 timeout st2.processes st2 q hq
        with ⟨p, hp, hn⟩
      exact hnone p hp (hn ▸ hc)
    have hu := monitorScan_untouched now2 timeout st2.processes st2 r.name
      (fun q hq => hnone q hq)
    exact (foldl_diagnose_reasons_ne
      (monitorScan now2 timeout st2.processes st2).2
      (monitorScan now2 timeout st2.processes st2).1 r.name hfin2).trans hu.2

/-- Witness for the C3 theorem: a single test launched at time 0, polled at
time 300 with a 210-second budget, is recorded `'FAIL (Timeout)'` with the
fixed reason and the live set is emptied. -/
theorem timeout_witness :
    (monitorIteration 300 210
      ⟨[⟨1, "t", 0, ProcState.running, false, "", ""⟩],
       fun _ => some "RUNNING", fun _ => none⟩).1.results "t" =
      some "FAIL (Timeout)" ∧
    (monitorIteration 300 210
      ⟨[⟨1, "t", 0, ProcState.running, false, "", ""⟩],
       fun _ => some "RUNNING", fun _ => none⟩).1.reasons "t" =
      some (timeoutMsg 210) ∧
    (monitorIteration 300 210
      ⟨[⟨1, "t", 0, ProcState.running, false, "", ""⟩],
       fun _ => some "RUNNING", fun _ => none⟩).1.processes = [] := by
  have h := timeout_kills_and_reason_fixed
    ⟨[⟨1, "t", 0, ProcState.running, false, "", ""⟩],
     fun _ => some "RUNNING", fun _ => none⟩
    300 210 ⟨1, "t", 0, ProcState.running, false, "", ""⟩
    (by decide) (by decide) rfl (by decide)
  exact ⟨h.1, h.2.1, by decide⟩
